import Mathlib

/-!
Shallow embedding of the buffered log ingestion engine of `shiba_log_server`
(`src/services/log-memory-store.js`, class `LogMemoryStore`), together with
proofs about its staging buffer, batch flusher, failure ledger and drain
controller.

Modelling conventions:
* JS `Map` objects (`pendingLogs`, `failedLogs`) are embedded as insertion
  ordered association lists `List (Nat × LogRec)`; `Map.set` replaces in
  place when the key is present and appends otherwise, `Map.delete` filters
  the key out.
* `randomUUID()` results (record ids and batch ids) and wall-clock readings
  (`Date.now()`, `new Date()`) are nondeterministic inputs, so every
  operation takes them as explicit arguments.
* The storage backend (`createMonthlyPartition`, `batchInsert`) is external;
  each flush attempt takes the outcome of the partition-provisioning call
  and of the bulk insert as `Except String Unit` arguments.  The 5-second
  `Promise.race` timeout rejection is one possible `insertRes` error.
* A method that can throw to its caller is embedded as `Except String _`;
  returning `.ok` models a normal return (including returns after an
  internal `catch` that swallows the error).
* `console.log` and `writeErrorLog` calls only perform I/O and touch no
  store state, so they have no counterpart in the embedding.
-/

namespace ShibaLog

/-- Opaque structured payload of a record (`metadata`): the `user_id`
property that the `userId` filter inspects, and the serialized JSON text
that the `metadata` substring filter searches. -/
structure Metadata where
  user_id : Option String
  json : String
deriving DecidableEq

/-- Producer-supplied payload of a log record before normalization. -/
structure RawLog where
  type : String
  level : String
  message : String
  metadata : Option Metadata
deriving DecidableEq

/-- A normalized record as stored in the buffer and the two ledger maps.
The optional fields are the properties the JS code adds dynamically:
`lastFailureReason`/`lastFailureAt` on a retried record,
`finalFailureReason`/`finalFailureAt`/`batchId` on a quarantined record,
`batchId`/`processingStartedAt` on an in-flight (pending) copy. -/
structure LogRec where
  type : String
  level : String
  message : String
  metadata : Option Metadata
  logId : Nat
  timestamp : Int
  createdAt : Int
  addedToBufferAt : Int
  retryCount : Nat
  lastFailureReason : Option String := none
  lastFailureAt : Option Int := none
  finalFailureReason : Option String := none
  finalFailureAt : Option Int := none
  batchId : Option Nat := none
  processingStartedAt : Option Int := none
deriving DecidableEq

/-- JS `Map.set`: replace the value when the key is present (keeping its
position), otherwise append the new entry at the tail (JS maps preserve
insertion order). -/
def mapSet (m : List (Nat × LogRec)) (k : Nat) (v : LogRec) : List (Nat × LogRec) :=
  if m.any (fun p => p.1 == k) then
    m.map (fun p => if p.1 == k then (k, v) else p)
  else
    m ++ [(k, v)]

/-- JS `Map.delete`: remove the entry with the given key. -/
def mapDelete (m : List (Nat × LogRec)) (k : Nat) : List (Nat × LogRec) :=
  m.filter (fun p => p.1 != k)

/-- Keys of an embedded JS `Map`, in insertion order. -/
def mapKeys (m : List (Nat × LogRec)) : List Nat :=
  m.map (·.1)

/-- State of a `LogMemoryStore` instance: the staging buffer, the
single-flight flag `_isProcessing`, the configuration, the two ledger maps,
the counters, and whether the periodic flush timer is currently installed
(`flushTimer !== null`). -/
structure Store where
  buffer : List LogRec
  _isProcessing : Bool
  BATCH_SIZE : Nat
  FLUSH_INTERVAL : Nat
  flushTimerActive : Bool
  pendingLogs : List (Nat × LogRec)
  failedLogs : List (Nat × LogRec)
  totalProcessed : Nat
  totalFailed : Nat
  lastProcessedAt : Option Int
  maxRetries : Nat
deriving DecidableEq

/-- The constructor: empty buffer and ledgers, zero counters, `maxRetries`
fixed at 3, and the flush timer started. -/
def initStore (batchSize flushInterval : Nat) : Store :=
  { buffer := []
    _isProcessing := false
    BATCH_SIZE := batchSize
    FLUSH_INTERVAL := flushInterval
    flushTimerActive := true
    pendingLogs := []
    failedLogs := []
    totalProcessed := 0
    totalFailed := 0
    lastProcessedAt := none
    maxRetries := 3 }

/-- Normalization performed by `addLog`: stamp the raw payload with a fresh
id, the current time (as `timestamp`, `createdAt` and `addedToBufferAt`) and
a zero retry counter. -/
def mkLogRecord (raw : RawLog) (newId : Nat) (now : Int) : LogRec :=
  { type := raw.type
    level := raw.level
    message := raw.message
    metadata := raw.metadata
    logId := newId
    timestamp := now
    createdAt := now
    addedToBufferAt := now
    retryCount := 0 }

/-- In-flight copy of a claimed record: `{...log, batchId, processingStartedAt}`
as recorded into `pendingLogs` at the start of a flush. -/
def pendingEntry (log : LogRec) (batchId : Nat) (now : Int) : LogRec :=
  { log with batchId := some batchId, processingStartedAt := some now }

/-- Mutation applied to a retryable record on a failed attempt:
`retryCount++` and stamping of `lastFailureReason` / `lastFailureAt`. -/
def bumpRetry (msg : String) (now : Int) (log : LogRec) : LogRec :=
  { log with
    retryCount := log.retryCount + 1
    lastFailureReason := some msg
    lastFailureAt := some now }

/-- Quarantined copy of a record:
`{...log, finalFailureReason, finalFailureAt, batchId}` as stored into
`failedLogs` when the retry budget is exhausted. -/
def permEntry (msg : String) (now : Int) (batchId : Nat) (log : LogRec) : LogRec :=
  { log with
    finalFailureReason := some msg
    finalFailureAt := some now
    batchId := some batchId }

/-- Record cleaned by `retryFailedLogs` before re-enqueueing: `retryCount`
reset to 0 and the final-failure fields deleted. -/
def clearRetry (log : LogRec) : LogRec :=
  { log with
    retryCount := 0
    finalFailureReason := none
    finalFailureAt := none }

/-- The method `ensureCurrentMonthPartition`: delegate to
`createMonthlyPartition` and rethrow any error with the wrapped message. -/
def ensureCurrentMonthPartition (partitionRes : Except String Unit) : Except String Unit :=
  match partitionRes with
  | .ok _ => .ok ()
  | .error e => .error ("파티션 생성 실패: " ++ e)

/-- Body of the `try` block of `processBuffer`: the partition check runs
first; only when it succeeds is the bulk insert (raced against the 5 s
timeout) attempted, whose outcome is `insertRes`. -/
def flushAttempt (partitionRes insertRes : Except String Unit) : Except String Unit :=
  match ensureCurrentMonthPartition partitionRes with
  | .error e => .error e
  | .ok _ => insertRes

/-- Accumulator of the failure-handling `forEach` loop of `processBuffer`:
the evolving `pendingLogs` and `failedLogs` maps and the two local arrays
`retryableLogs` and `permanentlyFailedLogs`. -/
structure RollbackAcc where
  pendingLogs : List (Nat × LogRec)
  failedLogs : List (Nat × LogRec)
  retryableLogs : List LogRec
  permanentlyFailedLogs : List LogRec
deriving DecidableEq

/-- One iteration of the failure-handling `forEach` of `processBuffer`:
delete the record from `pendingLogs`; when `retryCount < maxRetries` bump
it and collect it as retryable, otherwise store the quarantined copy into
`failedLogs` and collect it as permanently failed. -/
def rollbackStep (maxRetries : Nat) (msg : String) (now : Int) (batchId : Nat)
    (acc : RollbackAcc) (log : LogRec) : RollbackAcc :=
  let acc := { acc with pendingLogs := mapDelete acc.pendingLogs log.logId }
  if log.retryCount < maxRetries then
    { acc with retryableLogs := acc.retryableLogs ++ [bumpRetry msg now log] }
  else
    { acc with
      failedLogs := mapSet acc.failedLogs log.logId (permEntry msg now batchId log)
      permanentlyFailedLogs := acc.permanentlyFailedLogs ++ [log] }

/-- The method `processBuffer`.  Guard: no-op when a flush is in progress or
the buffer is empty.  Otherwise: set the single-flight flag and
`lastProcessedAt`, splice up to `BATCH_SIZE` records out of the buffer,
record them into `pendingLogs`, run the partition check and the bulk
insert; on success delete the pending entries and count the batch into
`totalProcessed`; on any failure (partition, insert, or timeout — all
caught by the same `catch`) run the retry/quarantine rollback; in both
cases the `finally` clears the single-flight flag.  The `catch` never
rethrows, hence every path returns `.ok`. -/
def processBuffer (s : Store) (batchId : Nat) (now : Int)
    (partitionRes insertRes : Except String Unit) : Except String Store :=
  if s._isProcessing || s.buffer.length == 0 then
    .ok s
  else
    let s1 : Store := { s with _isProcessing := true, lastProcessedAt := some now }
    let logsToProcess := s1.buffer.take s1.BATCH_SIZE
    let s2 : Store := { s1 with buffer := s1.buffer.drop s1.BATCH_SIZE }
    let s3 : Store := { s2 with
      pendingLogs := logsToProcess.foldl
        (fun m log => mapSet m log.logId (pendingEntry log batchId now)) s2.pendingLogs }
    match flushAttempt partitionRes insertRes with
    | .ok _ =>
      let s4 : Store := { s3 with
        pendingLogs := logsToProcess.foldl (fun m log => mapDelete m log.logId) s3.pendingLogs
        totalProcessed := s3.totalProcessed + logsToProcess.length }
      .ok { s4 with _isProcessing := false }
    | .error msg =>
      let acc := logsToProcess.foldl (rollbackStep s3.maxRetries msg now batchId)
        { pendingLogs := s3.pendingLogs
          failedLogs := s3.failedLogs
          retryableLogs := []
          permanentlyFailedLogs := [] }
      let s4 : Store := { s3 with
        pendingLogs := acc.pendingLogs
        failedLogs := acc.failedLogs
        buffer := s3.buffer ++ acc.retryableLogs
        totalFailed := s3.totalFailed + acc.permanentlyFailedLogs.length }
      .ok { s4 with _isProcessing := false }

/-- The method `addLog`: normalize the record, push it onto the buffer tail,
and when the buffer length has reached `BATCH_SIZE` immediately invoke
`processBuffer` (the synchronous size trigger). -/
def addLog (s : Store) (raw : RawLog) (newId : Nat) (now : Int)
    (batchId : Nat) (partitionRes insertRes : Except String Unit) : Except String Store :=
  let s1 : Store := { s with buffer := s.buffer ++ [mkLogRecord raw newId now] }
  if s1.BATCH_SIZE ≤ s1.buffer.length then
    processBuffer s1 batchId now partitionRes insertRes
  else
    .ok s1

/-- Nondeterministic inputs of one flush attempt: the fresh batch id, the
wall-clock time, and the backend outcomes. -/
structure FlushEnv where
  batchId : Nat
  now : Int
  partitionRes : Except String Unit
  insertRes : Except String Unit

/-- Loop of `forceFlush`: up to `fuel` iterations of
`while (buffer.length > 0) { await processBuffer() }`, attempt `i` using
the environment `env i`. -/
def forceFlushAux (env : Nat → FlushEnv) : Nat → Nat → Store → Except String Store
  | 0, _, s => .ok s
  | fuel + 1, i, s =>
    if s.buffer.length == 0 then
      .ok s
    else
      match processBuffer s (env i).batchId (env i).now (env i).partitionRes (env i).insertRes with
      | .ok s' => forceFlushAux env fuel (i + 1) s'
      | .error e => .error e

/-- The method `forceFlush`: repeatedly invoke `processBuffer` until the
buffer is empty or the attempt budget (`maxAttempts = 10`) is exhausted. -/
def forceFlush (env : Nat → FlushEnv) (s : Store) : Except String Store :=
  forceFlushAux env 10 0 s

/-- One iteration of the `forEach` of `retryFailedLogs`: reset the record's
retry state, push it onto the buffer tail, and delete it from the permanent
map. -/
def retryStep (s : Store) (log : LogRec) : Store :=
  { s with
    buffer := s.buffer ++ [clearRetry log]
    failedLogs := mapDelete s.failedLogs log.logId }

/-- Re-enqueue phase of `retryFailedLogs`: iterate `retryStep` over the
snapshot `Array.from(this.failedLogs.values())`. -/
def retryRequeue (s : Store) : Store :=
  (s.failedLogs.map Prod.snd).foldl retryStep s

/-- The method `retryFailedLogs`: no-op when the permanent map is empty,
otherwise re-enqueue every permanently failed record and trigger one flush
attempt. -/
def retryFailedLogs (s : Store) (batchId : Nat) (now : Int)
    (partitionRes insertRes : Except String Unit) : Except String Store :=
  if (s.failedLogs.map Prod.snd).length == 0 then
    .ok s
  else
    processBuffer (retryRequeue s) batchId now partitionRes insertRes

/-- The method `clearBuffer`: empty the buffer and the in-flight map and
cancel the flush timer.  `failedLogs` and the counters are untouched. -/
def clearBuffer (s : Store) : Store :=
  { s with buffer := [], pendingLogs := [], flushTimerActive := false }

/-- The method `startFlushTimer`: (re)install the periodic flush timer. -/
def startFlushTimer (s : Store) : Store :=
  { s with flushTimerActive := true }

/-- One firing of the `setInterval` callback: it can only happen while the
timer is installed, and any error thrown by `processBuffer` is caught at
the tick boundary (logged, state untouched). -/
def timerTick (s : Store) (e : FlushEnv) : Store :=
  if s.flushTimerActive then
    match processBuffer s e.batchId e.now e.partitionRes e.insertRes with
    | .ok s' => s'
    | .error _ => s
  else
    s

/-- Decidable substring test on character lists, the embedding of JS
`String.prototype.includes`. -/
def includesChars (needle : List Char) : List Char → Bool
  | [] => needle.isEmpty
  | c :: rest => List.isPrefixOf needle (c :: rest) || includesChars needle rest

/-- JS `hay.includes(needle)`. -/
def strIncludes (hay needle : String) : Bool :=
  includesChars needle.toList hay.toList

/-- JS truthiness of an optional string filter value: `undefined` and the
empty string are falsy. -/
def truthyStr : Option String → Option String
  | some t => if t == "" then none else some t
  | none => none

/-- Filter argument of `getStoredLogs`; absent properties are `none`. -/
structure Filters where
  type : Option String := none
  level : Option String := none
  message : Option String := none
  startDate : Option Int := none
  endDate : Option Int := none
  userId : Option String := none
  metadata : Option String := none
  page : Option Nat := none
  limit : Option Nat := none

/-- A record as returned by `getStoredLogs`: the buffered record decorated
with `created_at` (the creation timestamp), `logged_at: null` and
`source: 'memory'`. -/
structure StoredView where
  log : LogRec
  created_at : Int
  logged_at : Option Int
  source : String
deriving DecidableEq

/-- Result shape of `getStoredLogs`. -/
structure StoredLogsResult where
  records : List StoredView
  total : Nat
  page : Nat
  totalPages : Nat
deriving DecidableEq

/-- The method `getStoredLogs`: filter a copy of the buffer, paginate with
`page` and `limit` (JS `filters.page || 1` and `filters.limit || 50`, so 0
falls back to the default), sort descending by `createdAt`, slice the page
window, and decorate each record.  `totalPages` is
`Math.ceil(total / limit)`, on naturals `(total + limit - 1) / limit`.
The method reads the store and returns it unchanged. -/
def getStoredLogs (s : Store) (f : Filters) : StoredLogsResult × Store :=
  let filteredLogs := s.buffer
  let filteredLogs : List LogRec := match truthyStr f.type with
    | some t => filteredLogs.filter (fun log => log.type == t)
    | none => filteredLogs
  let filteredLogs : List LogRec := match truthyStr f.level with
    | some t => filteredLogs.filter (fun log => log.level == t)
    | none => filteredLogs
  let filteredLogs : List LogRec := match truthyStr f.message with
    | some t => filteredLogs.filter (fun log =>
        !(log.message == "") && strIncludes log.message.toLower t.toLower)
    | none => filteredLogs
  let filteredLogs : List LogRec := match f.startDate with
    | some d => filteredLogs.filter (fun log => d ≤ log.createdAt)
    | none => filteredLogs
  let filteredLogs : List LogRec := match f.endDate with
    | some d => filteredLogs.filter (fun log => log.createdAt ≤ d)
    | none => filteredLogs
  let filteredLogs : List LogRec := match truthyStr f.userId with
    | some uid => filteredLogs.filter (fun log =>
        match log.metadata with
        | some md =>
          match truthyStr md.user_id with
          | some u => u == uid
          | none => false
        | none => false)
    | none => filteredLogs
  let filteredLogs : List LogRec := match truthyStr f.metadata with
    | some m => filteredLogs.filter (fun log =>
        match log.metadata with
        | some md => strIncludes md.json.toLower m.toLower
        | none => false)
    | none => filteredLogs
  let total := filteredLogs.length
  let page := match f.page with
    | some p => if p == 0 then 1 else p
    | none => 1
  let limit := match f.limit with
    | some l => if l == 0 then 50 else l
    | none => 50
  let offset := (page - 1) * limit
  let sortedLogs :=
    (((filteredLogs.mergeSort (fun a b => b.createdAt ≤ a.createdAt)).drop offset).take limit).map
      (fun log =>
        { log := log, created_at := log.createdAt, logged_at := none, source := "memory" })
  ({ records := sortedLogs
     total := total
     page := page
     totalPages := (total + limit - 1) / limit }, s)

/-- Page number actually used by `getStoredLogs` for a filter argument. -/
def pageUsed (f : Filters) : Nat :=
  match f.page with
  | some p => if p == 0 then 1 else p
  | none => 1

/-- Page size actually used by `getStoredLogs` for a filter argument. -/
def limitUsed (f : Filters) : Nat :=
  match f.limit with
  | some l => if l == 0 then 50 else l
  | none => 50

/-- A store operation together with its nondeterministic inputs (fresh ids,
wall-clock time, backend outcomes for the flush it may trigger). -/
inductive Op where
  | add (raw : RawLog) (newId : Nat) (now : Int) (batchId : Nat)
      (partitionRes insertRes : Except String Unit)
  | flush (batchId : Nat) (now : Int) (partitionRes insertRes : Except String Unit)
  | retryAll (batchId : Nat) (now : Int) (partitionRes insertRes : Except String Unit)

/-- Apply one operation to the store. -/
def applyOp (s : Store) : Op → Except String Store
  | .add raw newId now batchId pr ir => addLog s raw newId now batchId pr ir
  | .flush batchId now pr ir => processBuffer s batchId now pr ir
  | .retryAll batchId now pr ir => retryFailedLogs s batchId now pr ir

/-- Run a sequence of operations, stopping at the first escaped exception. -/
def runOps (s : Store) : List Op → Except String Store
  | [] => .ok s
  | op :: ops =>
    match applyOp s op with
    | .ok s' => runOps s' ops
    | .error e => .error e

/-- Identifiers of all records held anywhere in the store: staging buffer,
in-flight map, permanent-failure map (in that order). -/
def allIds (s : Store) : List Nat :=
  s.buffer.map (·.logId) ++ mapKeys s.pendingLogs ++ mapKeys s.failedLogs

/-- Container exclusivity: no record id occurs twice across (or inside) the
staging buffer, the in-flight map and the permanent-failure map. -/
def Exclusive (s : Store) : Prop :=
  (allIds s).Nodup

/-- Both ledger maps key each entry by the record's own `logId`. -/
def WellKeyed (s : Store) : Prop :=
  (∀ p ∈ s.pendingLogs, p.2.logId = p.1) ∧ ∀ p ∈ s.failedLogs, p.2.logId = p.1

/-- Well-formedness of a store state. -/
def StoreWF (s : Store) : Prop :=
  Exclusive s ∧ WellKeyed s

/-- Freshness of the id an operation introduces: `randomUUID()` never
collides with an id already in the store. -/
def opFreshB (s : Store) : Op → Bool
  | .add _ newId _ _ _ _ => !(allIds s).contains newId
  | .flush _ _ _ _ => true
  | .retryAll _ _ _ _ => true

/-- Freshness of every id introduced along a run of operations. -/
def freshAlongB (s : Store) : List Op → Bool
  | [] => true
  | op :: ops =>
    opFreshB s op &&
      match applyOp s op with
      | .ok s' => freshAlongB s' ops
      | .error _ => true

/-- Observation: a normally returned result. -/
def isOkB (e : Except String Store) : Bool :=
  match e with
  | .ok _ => true
  | .error _ => false

/-- Observation: the record id is a key of the permanent-failure map of a
normally returned store. -/
def inFailedMap (e : Except String Store) (id : Nat) : Bool :=
  match e with
  | .ok s => (mapKeys s.failedLogs).contains id
  | .error _ => false

/-- Observation: the `retryCount` of the buffered record with the given id,
when the result returned normally and the record is staged. -/
def bufferRetryCount (e : Except String Store) (id : Nat) : Option Nat :=
  match e with
  | .ok s => (s.buffer.find? (fun l => l.logId == id)).map (·.retryCount)
  | .error _ => none

/-- Retry-bound invariant: every record in the permanent-failure map has
exhausted its retry budget. -/
def FailedBound (s : Store) : Prop :=
  ∀ p ∈ s.failedLogs, s.maxRetries ≤ p.2.retryCount

/-- Concrete raw payload used in concrete runs. -/
def rawA : RawLog :=
  { type := "game", level := "info", message := "hello", metadata := none }

/-- A record whose retry budget (3) is already exhausted. -/
def recMaxed : LogRec :=
  { type := "game", level := "info", message := "hello", metadata := none
    logId := 5, timestamp := 0, createdAt := 0, addedToBufferAt := 0, retryCount := 3 }

/-- A freshly normalized record (retryCount 0). -/
def recFresh : LogRec :=
  mkLogRecord rawA 9 0

/-- Store holding one record at the retry bound. -/
def c2Store : Store :=
  { initStore 1000 60000 with buffer := [recMaxed] }

/-- Store holding one freshly appended record. -/
def c5Store : Store :=
  { initStore 1000 60000 with buffer := [mkLogRecord rawA 9 0] }

/-- Store holding one fresh and one retry-exhausted record. -/
def c6Store : Store :=
  { initStore 1000 60000 with buffer := [recFresh, recMaxed] }

/-- Store holding two records with distinct creation times. -/
def c9Store : Store :=
  { initStore 1000 60000 with buffer := [mkLogRecord rawA 1 5, mkLogRecord rawA 2 9] }

/-- A concrete run: one append, one failing flush, one retry-all. -/
def c1Ops : List Op :=
  [.add rawA 7 0 1 (.ok ()) (.ok ()),
   .flush 2 1 (.ok ()) (.error "db down"),
   .retryAll 3 2 (.ok ()) (.error "db down")]

/-- Final store of the `c1Ops` run. -/
def c1Out : Store :=
  match runOps (initStore 2 60000) c1Ops with
  | .ok s => s
  | .error _ => initStore 2 60000

/-- One append followed by three flush attempts against an always-failing
backend (`maxRetries = 3`). -/
def c3Ops3 : List Op :=
  [.add rawA 5 0 1 (.ok ()) (.ok ()),
   .flush 11 1 (.ok ()) (.error "down"),
   .flush 12 2 (.ok ()) (.error "down"),
   .flush 13 3 (.ok ()) (.error "down")]

/-- The same run with a fourth failing flush attempt. -/
def c3Ops4 : List Op :=
  c3Ops3 ++ [.flush 14 4 (.ok ()) (.error "down")]

/-- Final store of the `c3Ops4` run. -/
def c3After4 : Store :=
  match runOps (initStore 1000 60000) c3Ops4 with
  | .ok s => s
  | .error _ => initStore 1000 60000

/-- Final store of one failing flush on `c5Store`. -/
def c7Out : Store :=
  match processBuffer c5Store 1 0 (.ok ()) (.error "x") with
  | .ok s => s
  | .error _ => c5Store

/-! ### Association-list lemmas for the embedded JS maps -/

theorem mapKeys_append (m₁ m₂ : List (Nat × LogRec)) :
    mapKeys (m₁ ++ m₂) = mapKeys m₁ ++ mapKeys m₂ := by
  simp [mapKeys]

theorem mapSet_fresh {m : List (Nat × LogRec)} {k : Nat} (v : LogRec)
    (h : k ∉ mapKeys m) : mapSet m k v = m ++ [(k, v)] := by
  have hany : m.any (fun p => p.1 == k) = false := by
    rw [List.any_eq_false]
    intro p hp
    simp only [beq_iff_eq]
    intro hpk
    exact h (hpk ▸ List.mem_map_of_mem (·.1) hp)
  simp [mapSet, hany]

theorem mapSet_mem {m : List (Nat × LogRec)} {k : Nat} {v : LogRec}
    {p : Nat × LogRec} (h : p ∈ mapSet m k v) : p ∈ m ∨ p = (k, v) := by
  unfold mapSet at h
  by_cases hc : m.any (fun p => p.1 == k) = true
  · rw [if_pos hc] at h
    rcases List.mem_map.1 h with ⟨q, hq, hqe⟩
    by_cases hqk : (q.1 == k) = true
    · right
      rw [if_pos hqk] at hqe
      exact hqe.symm
    · left
      rw [if_neg hqk] at hqe
      exact hqe ▸ hq
  · rw [if_neg hc] at h
    rcases List.mem_append.1 h with h | h
    · exact .inl h
    · right
      simpa using h

theorem mapDelete_of_fresh {m : List (Nat × LogRec)} {k : Nat}
    (h : k ∉ mapKeys m) : mapDelete m k = m := by
  apply List.filter_eq_self.2
  intro p hp
  simp only [bne_iff_ne, ne_eq]
  intro hpk
  exact h (hpk ▸ List.mem_map_of_mem (·.1) hp)

/-- Deleting every record of a batch from a map filters out all its keys. -/
theorem delFold_eq (C : List LogRec) (m : List (Nat × LogRec)) :
    C.foldl (fun m log => mapDelete m log.logId) m
      = m.filter (fun p => !(C.map (·.logId)).contains p.1) := by
  induction C generalizing m with
  | nil => simp
  | cons l C ih =>
    rw [List.foldl_cons, ih, mapDelete, List.filter_filter]
    apply List.filter_congr
    intro p _
    by_cases h : p.1 = l.logId <;> simp [h, Bool.not_or, bne]

/-- Recording a batch of fresh, distinct ids into a map appends the batch's
pending entries in order. -/
theorem setFold_eq (b : Nat) (t : Int) :
    ∀ (C : List LogRec) (m : List (Nat × LogRec)),
      (C.map (·.logId)).Nodup → (∀ l ∈ C, l.logId ∉ mapKeys m) →
      C.foldl (fun m log => mapSet m log.logId (pendingEntry log b t)) m
        = m ++ C.map (fun l => (l.logId, pendingEntry l b t)) := by
  intro C
  induction C with
  | nil =>
    intro m _ _
    simp
  | cons l C ih =>
    intro m hnd hfr
    rw [List.map_cons, List.nodup_cons] at hnd
    rw [List.foldl_cons, mapSet_fresh _ (hfr l (List.mem_cons_self l C)),
      ih _ hnd.2 ?_]
    · simp
    · intro x hx
      rw [mapKeys_append]
      simp only [List.mem_append, not_or]
      refine ⟨hfr x (List.mem_cons_of_mem l hx), ?_⟩
      simp only [mapKeys, List.map_cons, List.map_nil, List.mem_singleton]
      intro hxl
      exact hnd.1 (hxl ▸ List.mem_map_of_mem (·.logId) hx)

/-- Any entry present after recording a batch into a map was either there
before or carries one of the batch's ids. -/
theorem setFold_mem (b : Nat) (t : Int) :
    ∀ (C : List LogRec) (m : List (Nat × LogRec)) (p : Nat × LogRec),
      p ∈ C.foldl (fun m log => mapSet m log.logId (pendingEntry log b t)) m →
      p ∈ m ∨ p.1 ∈ C.map (·.logId) := by
  intro C
  induction C with
  | nil =>
    intro m p h
    exact .inl h
  | cons l C ih =>
    intro m p h
    rw [List.foldl_cons] at h
    rcases ih _ _ h with h' | h'
    · rcases mapSet_mem h' with h'' | h''
      · exact .inl h''
      · right
        simp [h'']
    · right
      simp [h']

/-! ### Characterization of the failure-handling rollback loop -/

@[simp] theorem pendingEntry_logId (log : LogRec) (b : Nat) (t : Int) :
    (pendingEntry log b t).logId = log.logId := rfl

@[simp] theorem bumpRetry_logId (msg : String) (t : Int) (log : LogRec) :
    (bumpRetry msg t log).logId = log.logId := rfl

@[simp] theorem permEntry_logId (msg : String) (t : Int) (b : Nat) (log : LogRec) :
    (permEntry msg t b log).logId = log.logId := rfl

@[simp] theorem clearRetry_logId (log : LogRec) :
    (clearRetry log).logId = log.logId := rfl

theorem rollbackStep_retry {maxR : Nat} {msg : String} {t : Int} {b : Nat}
    {acc : RollbackAcc} {log : LogRec} (h : log.retryCount < maxR) :
    rollbackStep maxR msg t b acc log =
      { acc with
        pendingLogs := mapDelete acc.pendingLogs log.logId
        retryableLogs := acc.retryableLogs ++ [bumpRetry msg t log] } := by
  simp [rollbackStep, h]

theorem rollbackStep_perm {maxR : Nat} {msg : String} {t : Int} {b : Nat}
    {acc : RollbackAcc} {log : LogRec} (h : ¬ log.retryCount < maxR) :
    rollbackStep maxR msg t b acc log =
      { acc with
        pendingLogs := mapDelete acc.pendingLogs log.logId
        failedLogs := mapSet acc.failedLogs log.logId (permEntry msg t b log)
        permanentlyFailedLogs := acc.permanentlyFailedLogs ++ [log] } := by
  simp [rollbackStep, h]

/-- Full characterization of the rollback loop when the batch ids are
distinct and fresh for the permanent map: pending entries of the batch are
deleted, retryable records are bumped and collected in order, records with
an exhausted budget are quarantined (appended to the permanent map) in
order. -/
theorem rollbackFold_eq (maxR : Nat) (msg : String) (t : Int) (b : Nat) :
    ∀ (C : List LogRec) (P F : List (Nat × LogRec)) (R Pm : List LogRec),
      (C.map (·.logId)).Nodup → (∀ l ∈ C, l.logId ∉ mapKeys F) →
      C.foldl (rollbackStep maxR msg t b) ⟨P, F, R, Pm⟩ =
        ⟨P.filter (fun p => !(C.map (·.logId)).contains p.1),
         F ++ (C.filter (fun l => !decide (l.retryCount < maxR))).map
           (fun l => (l.logId, permEntry msg t b l)),
         R ++ (C.filter (fun l => decide (l.retryCount < maxR))).map (bumpRetry msg t),
         Pm ++ C.filter (fun l => !decide (l.retryCount < maxR))⟩ := by
  intro C
  induction C with
  | nil =>
    intro P F R Pm _ _
    simp
  | cons l C ih =>
    intro P F R Pm hnd hfr
    rw [List.map_cons, List.nodup_cons] at hnd
    have hpending : (mapDelete P l.logId).filter
        (fun p => !(C.map (·.logId)).contains p.1)
        = P.filter (fun p => !((l :: C).map (·.logId)).contains p.1) := by
      rw [mapDelete, List.filter_filter]
      apply List.filter_congr
      intro p _
      by_cases h : p.1 = l.logId <;> simp [h, Bool.not_or, bne]
    by_cases hret : l.retryCount < maxR
    · rw [List.foldl_cons, rollbackStep_retry hret,
        ih (mapDelete P l.logId) F (R ++ [bumpRetry msg t l]) Pm hnd.2
          (fun x hx => hfr x (List.mem_cons_of_mem l hx))]
      simp [hret, List.filter_cons]
      simpa using hpending
    · have hfr' : ∀ x ∈ C, x.logId ∉
          mapKeys (mapSet F l.logId (permEntry msg t b l)) := by
        intro x hx
        rw [mapSet_fresh _ (hfr l (List.mem_cons_self l C)), mapKeys_append]
        simp only [List.mem_append, not_or]
        refine ⟨hfr x (List.mem_cons_of_mem l hx), ?_⟩
        simp only [mapKeys, List.map_cons, List.map_nil, List.mem_singleton,
          permEntry_logId]
        intro hxl
        exact hnd.1 (hxl ▸ List.mem_map_of_mem (·.logId) hx)
      rw [List.foldl_cons, rollbackStep_perm hret,
        ih (mapDelete P l.logId) (mapSet F l.logId (permEntry msg t b l)) R
          (Pm ++ [l]) hnd.2 hfr']
      rw [mapSet_fresh _ (hfr l (List.mem_cons_self l C))]
      simp [hret, List.filter_cons]
      simpa using hpending

/-- Any entry of the permanent map after the rollback loop was either there
before or is the quarantined copy of a batch record whose retry budget was
exhausted. -/
theorem rollbackFold_failed_mem (maxR : Nat) (msg : String) (t : Int) (b : Nat) :
    ∀ (C : List LogRec) (acc : RollbackAcc) (p : Nat × LogRec),
      p ∈ (C.foldl (rollbackStep maxR msg t b) acc).failedLogs →
      p ∈ acc.failedLogs ∨
        ∃ l ∈ C, ¬ l.retryCount < maxR ∧ p = (l.logId, permEntry msg t b l) := by
  intro C
  induction C with
  | nil =>
    intro acc p h
    exact .inl h
  | cons l C ih =>
    intro acc p h
    rw [List.foldl_cons] at h
    by_cases hret : l.retryCount < maxR
    · rw [rollbackStep_retry hret] at h
      rcases ih _ _ h with h' | ⟨x, hx, hxr, hxe⟩
      · exact .inl h'
      · exact .inr ⟨x, List.mem_cons_of_mem l hx, hxr, hxe⟩
    · rw [rollbackStep_perm hret] at h
      rcases ih _ _ h with h' | ⟨x, hx, hxr, hxe⟩
      · rcases mapSet_mem h' with h'' | h''
        · exact .inl h''
        · exact .inr ⟨l, List.mem_cons_self l C, hret, h''⟩
      · exact .inr ⟨x, List.mem_cons_of_mem l hx, hxr, hxe⟩

/-! ### Path characterizations of `processBuffer` -/

/-- Guard path: a flush already in progress or an empty buffer is a no-op. -/
theorem processBuffer_guard {s : Store} (b : Nat) (t : Int) (pr ir : Except String Unit)
    (h : s._isProcessing = true ∨ s.buffer = []) :
    processBuffer s b t pr ir = .ok s := by
  have hg : (s._isProcessing || s.buffer.length == 0) = true := by
    rcases h with h | h <;> simp [h]
  unfold processBuffer
  rw [if_pos hg]

/-- Every call of `processBuffer` returns normally (the `catch` swallows all
errors), and it never touches `maxRetries`, `BATCH_SIZE`, the timer handle,
or (net) the single-flight flag. -/
theorem processBuffer_frame (s : Store) (b : Nat) (t : Int) (pr ir : Except String Unit) :
    ∃ s', processBuffer s b t pr ir = .ok s' ∧
      s'.maxRetries = s.maxRetries ∧
      s'.BATCH_SIZE = s.BATCH_SIZE ∧
      s'.FLUSH_INTERVAL = s.FLUSH_INTERVAL ∧
      s'.flushTimerActive = s.flushTimerActive ∧
      s'._isProcessing = s._isProcessing := by
  unfold processBuffer
  by_cases h : (s._isProcessing || s.buffer.length == 0) = true
  · rw [if_pos h]
    exact ⟨s, rfl, rfl, rfl, rfl, rfl, rfl⟩
  · rw [if_neg h]
    simp only [Bool.or_eq_true, not_or, Bool.not_eq_true] at h
    cases hfa : flushAttempt pr ir with
    | ok u => exact ⟨_, rfl, rfl, rfl, rfl, rfl, h.1.symm⟩
    | error msg => exact ⟨_, rfl, rfl, rfl, rfl, rfl, h.1.symm⟩

/-- Success path of `processBuffer`, when the claimed batch's ids are
distinct and not already in flight: the batch leaves the buffer, pending
entries cancel out, and the batch is counted into `totalProcessed`. -/
theorem processBuffer_success {s : Store} (b : Nat) (t : Int) {pr ir : Except String Unit}
    (hp : s._isProcessing = false) (hne : s.buffer ≠ [])
    (hok : flushAttempt pr ir = .ok ())
    (hnd : ((s.buffer.take s.BATCH_SIZE).map (·.logId)).Nodup)
    (hfr : ∀ l ∈ s.buffer.take s.BATCH_SIZE, l.logId ∉ mapKeys s.pendingLogs) :
    processBuffer s b t pr ir = .ok
      { s with
        buffer := s.buffer.drop s.BATCH_SIZE
        _isProcessing := false
        lastProcessedAt := some t
        totalProcessed := s.totalProcessed + (s.buffer.take s.BATCH_SIZE).length } := by
  have hfilter : (s.pendingLogs ++ (s.buffer.take s.BATCH_SIZE).map
        (fun l => (l.logId, pendingEntry l b t))).filter
      (fun p => !((s.buffer.take s.BATCH_SIZE).map (·.logId)).contains p.1)
      = s.pendingLogs := by
    rw [List.filter_append]
    have h1 : s.pendingLogs.filter
        (fun p => !((s.buffer.take s.BATCH_SIZE).map (·.logId)).contains p.1)
        = s.pendingLogs := by
      apply List.filter_eq_self.2
      intro p hp'
      have hnm : p.1 ∉ (s.buffer.take s.BATCH_SIZE).map (·.logId) := by
        intro hmem
        rcases List.mem_map.1 hmem with ⟨a, ha, hae⟩
        exact hfr a ha (hae ▸ List.mem_map_of_mem (·.1) hp')
      simpa using hnm
    have h2 : ((s.buffer.take s.BATCH_SIZE).map
          (fun l => (l.logId, pendingEntry l b t))).filter
        (fun p => !((s.buffer.take s.BATCH_SIZE).map (·.logId)).contains p.1) = [] := by
      rw [List.filter_eq_nil_iff]
      intro p hp'
      rcases List.mem_map.1 hp' with ⟨l, hl, rfl⟩
      have hmem : l.logId ∈ (s.buffer.take s.BATCH_SIZE).map (·.logId) :=
        List.mem_map_of_mem (·.logId) hl
      simpa using hmem
    rw [h1, h2, List.append_nil]
  have hg : ¬ ((s._isProcessing || s.buffer.length == 0) = true) := by
    simp [hp, List.length_eq_zero, hne]
  unfold processBuffer
  rw [if_neg hg, hok]
  dsimp only
  rw [setFold_eq b t _ _ hnd hfr, delFold_eq, hfilter]

/-- Success path of `processBuffer` from a state with no in-flight records
(no distinctness of the batch ids required). -/
theorem processBuffer_success_nopending {s : Store} (b : Nat) (t : Int)
    {pr ir : Except String Unit}
    (hp : s._isProcessing = false) (hne : s.buffer ≠ [])
    (hok : flushAttempt pr ir = .ok ()) (hpend : s.pendingLogs = []) :
    processBuffer s b t pr ir = .ok
      { s with
        buffer := s.buffer.drop s.BATCH_SIZE
        _isProcessing := false
        lastProcessedAt := some t
        totalProcessed := s.totalProcessed + (s.buffer.take s.BATCH_SIZE).length } := by
  have hg : ¬ ((s._isProcessing || s.buffer.length == 0) = true) := by
    simp [hp, List.length_eq_zero, hne]
  unfold processBuffer
  rw [if_neg hg, hok]
  dsimp only
  rw [hpend, delFold_eq]
  have hempty : ((s.buffer.take s.BATCH_SIZE).foldl
        (fun m log => mapSet m log.logId (pendingEntry log b t)) []).filter
      (fun p => !((s.buffer.take s.BATCH_SIZE).map (·.logId)).contains p.1) = [] := by
    rw [List.filter_eq_nil_iff]
    intro p hp'
    rcases setFold_mem b t _ _ _ hp' with h | h
    · cases h
    · simpa using h
  rw [hempty]

/-- Failure path of `processBuffer` (insert error, timeout, or partition
error — all reach the same `catch`), when the claimed batch's ids are
distinct and fresh for both ledger maps: retryable records are bumped and
re-appended at the buffer tail, exhausted records are quarantined and
counted into `totalFailed`, and the pending entries cancel out. -/
theorem processBuffer_failure {s : Store} (b : Nat) (t : Int) {pr ir : Except String Unit}
    {msg : String}
    (hp : s._isProcessing = false) (hne : s.buffer ≠ [])
    (herr : flushAttempt pr ir = .error msg)
    (hnd : ((s.buffer.take s.BATCH_SIZE).map (·.logId)).Nodup)
    (hfrP : ∀ l ∈ s.buffer.take s.BATCH_SIZE, l.logId ∉ mapKeys s.pendingLogs)
    (hfrF : ∀ l ∈ s.buffer.take s.BATCH_SIZE, l.logId ∉ mapKeys s.failedLogs) :
    processBuffer s b t pr ir = .ok
      { s with
        buffer := s.buffer.drop s.BATCH_SIZE ++
          ((s.buffer.take s.BATCH_SIZE).filter
            (fun l => decide (l.retryCount < s.maxRetries))).map (bumpRetry msg t)
        failedLogs := s.failedLogs ++
          ((s.buffer.take s.BATCH_SIZE).filter
            (fun l => !decide (l.retryCount < s.maxRetries))).map
            (fun l => (l.logId, permEntry msg t b l))
        totalFailed := s.totalFailed +
          ((s.buffer.take s.BATCH_SIZE).filter
            (fun l => !decide (l.retryCount < s.maxRetries))).length
        _isProcessing := false
        lastProcessedAt := some t } := by
  have hfilter : (s.pendingLogs ++ (s.buffer.take s.BATCH_SIZE).map
        (fun l => (l.logId, pendingEntry l b t))).filter
      (fun p => !((s.buffer.take s.BATCH_SIZE).map (·.logId)).contains p.1)
      = s.pendingLogs := by
    rw [List.filter_append]
    have h1 : s.pendingLogs.filter
        (fun p => !((s.buffer.take s.BATCH_SIZE).map (·.logId)).contains p.1)
        = s.pendingLogs := by
      apply List.filter_eq_self.2
      intro p hp'
      have hnm : p.1 ∉ (s.buffer.take s.BATCH_SIZE).map (·.logId) := by
        intro hmem
        rcases List.mem_map.1 hmem with ⟨a, ha, hae⟩
        exact hfrP a ha (hae ▸ List.mem_map_of_mem (·.1) hp')
      simpa using hnm
    have h2 : ((s.buffer.take s.BATCH_SIZE).map
          (fun l => (l.logId, pendingEntry l b t))).filter
        (fun p => !((s.buffer.take s.BATCH_SIZE).map (·.logId)).contains p.1) = [] := by
      rw [List.filter_eq_nil_iff]
      intro p hp'
      rcases List.mem_map.1 hp' with ⟨l, hl, rfl⟩
      have hmem : l.logId ∈ (s.buffer.take s.BATCH_SIZE).map (·.logId) :=
        List.mem_map_of_mem (·.logId) hl
      simpa using hmem
    rw [h1, h2, List.append_nil]
  have hg : ¬ ((s._isProcessing || s.buffer.length == 0) = true) := by
    simp [hp, List.length_eq_zero, hne]
  unfold processBuffer
  rw [if_neg hg, herr]
  dsimp only
  rw [setFold_eq b t _ _ hnd hfrP,
    rollbackFold_eq s.maxRetries msg t b _ _ _ _ _ hnd hfrF, hfilter]
  simp

/-! ### Characterization of the requeue loop of `retryFailedLogs` -/

/-- Iterating `retryStep` over the snapshot of a well-keyed, duplicate-free
permanent map empties the map and appends the cleaned records to the buffer
tail in map order. -/
theorem retryFold_eq :
    ∀ (F : List (Nat × LogRec)) (s : Store), s.failedLogs = F →
      (mapKeys F).Nodup → (∀ p ∈ F, p.2.logId = p.1) →
      (F.map Prod.snd).foldl retryStep s
        = { s with
            buffer := s.buffer ++ (F.map Prod.snd).map clearRetry
            failedLogs := [] } := by
  intro F
  induction F with
  | nil =>
    intro s hF _ _
    simp only [List.map_nil, List.foldl_nil, List.append_nil]
    rw [← hF]
  | cons q F ih =>
    intro s hF hnd hwk
    obtain ⟨k, v⟩ := q
    have hvk : v.logId = k := hwk (k, v) (List.mem_cons_self _ _)
    have hkF : k ∉ mapKeys F := by
      have : (k :: mapKeys F).Nodup := by simpa [mapKeys] using hnd
      exact (List.nodup_cons.1 this).1
    have hdel : mapDelete ((k, v) :: F) k = F := by
      unfold mapDelete
      rw [List.filter_cons]
      have hhd : (((k, v) : Nat × LogRec).1 != k) = false := by simp
      rw [hhd]
      simp only [Bool.false_eq_true, if_false]
      exact mapDelete_of_fresh hkF
    have hstep : retryStep s v = { s with
        buffer := s.buffer ++ [clearRetry v], failedLogs := F } := by
      unfold retryStep
      rw [hF, hvk, hdel]
    rw [List.map_cons, List.foldl_cons, hstep,
      ih { s with buffer := s.buffer ++ [clearRetry v], failedLogs := F } rfl
        (by simpa [mapKeys] using (List.nodup_cons.1 (by simpa [mapKeys] using hnd)).2)
        (fun p hp => hwk p (List.mem_cons_of_mem _ hp))]
    simp

/-- The requeue phase on a well-formed store: cleaned records go to the
buffer tail, the permanent map is emptied, nothing else changes. -/
theorem retryRequeue_eq {s : Store} (hnd : (mapKeys s.failedLogs).Nodup)
    (hwk : ∀ p ∈ s.failedLogs, p.2.logId = p.1) :
    retryRequeue s = { s with
      buffer := s.buffer ++ (s.failedLogs.map Prod.snd).map clearRetry
      failedLogs := [] } :=
  retryFold_eq s.failedLogs s rfl hnd hwk

/-- The requeue loop only ever deletes entries from the permanent map, and
never touches `maxRetries`. -/
theorem retryFold_failed_sub :
    ∀ (V : List LogRec) (s : Store),
      (V.foldl retryStep s).failedLogs ⊆ s.failedLogs ∧
      (V.foldl retryStep s).maxRetries = s.maxRetries := by
  intro V
  induction V with
  | nil =>
    intro s
    exact ⟨fun _ h => h, rfl⟩
  | cons v V ih =>
    intro s
    rw [List.foldl_cons]
    refine ⟨fun p hp => ?_, (ih (retryStep s v)).2⟩
    exact List.mem_of_mem_filter ((ih (retryStep s v)).1 hp)

/-! ### Preservation of store well-formedness -/

/-- Unpacking of the exclusivity invariant into per-container distinctness
and pairwise disjointness. -/
theorem Exclusive_parts {s : Store} (h : Exclusive s) :
    (s.buffer.map (·.logId)).Nodup ∧ (mapKeys s.pendingLogs).Nodup ∧
    (mapKeys s.failedLogs).Nodup ∧
    (∀ i ∈ s.buffer.map (·.logId), i ∉ mapKeys s.pendingLogs) ∧
    (∀ i ∈ s.buffer.map (·.logId), i ∉ mapKeys s.failedLogs) ∧
    (∀ i ∈ mapKeys s.pendingLogs, i ∉ mapKeys s.failedLogs) := by
  unfold Exclusive allIds at h
  rw [List.append_assoc, List.nodup_append] at h
  obtain ⟨h1, h2, h3⟩ := h
  rw [List.nodup_append] at h2
  obtain ⟨h4, h5, h6⟩ := h2
  refine ⟨h1, h4, h5, ?_, ?_, fun i hi hif => h6 hi hif⟩
  · intro i hi hip
    exact h3 hi (List.mem_append_left _ hip)
  · intro i hi hif
    exact h3 hi (List.mem_append_right _ hif)

/-- Ids of the claimed batch are distinct and fresh for both ledger maps on
a well-formed store. -/
theorem batch_fresh {s : Store} (hwf : StoreWF s) :
    ((s.buffer.take s.BATCH_SIZE).map (·.logId)).Nodup ∧
    (∀ l ∈ s.buffer.take s.BATCH_SIZE, l.logId ∉ mapKeys s.pendingLogs) ∧
    (∀ l ∈ s.buffer.take s.BATCH_SIZE, l.logId ∉ mapKeys s.failedLogs) := by
  obtain ⟨h1, _, _, h4, h5, _⟩ := Exclusive_parts hwf.1
  have hsub : List.Sublist ((s.buffer.take s.BATCH_SIZE).map (·.logId))
      (s.buffer.map (·.logId)) :=
    (List.take_sublist _ _).map _
  refine ⟨h1.sublist hsub, ?_, ?_⟩
  · intro l hl
    exact h4 _ (List.mem_map_of_mem (·.logId) (List.mem_of_mem_take hl))
  · intro l hl
    exact h5 _ (List.mem_map_of_mem (·.logId) (List.mem_of_mem_take hl))

/-- The record ids of the store after a failed flush attempt are a
permutation of the ids before it: the batch is split into retried (buffer
tail) and quarantined (permanent-map tail) records. -/
theorem failure_ids_perm (n maxR : Nat) (msg : String) (t : Int) (b : Nat)
    (buf : List LogRec) (P F : List (Nat × LogRec)) :
    List.Perm
      ((buf.drop n ++ ((buf.take n).filter
          (fun l => decide (l.retryCount < maxR))).map (bumpRetry msg t)).map (·.logId)
        ++ mapKeys P
        ++ mapKeys (F ++ ((buf.take n).filter
          (fun l => !decide (l.retryCount < maxR))).map
            (fun l => (l.logId, permEntry msg t b l))))
      (buf.map (·.logId) ++ mapKeys P ++ mapKeys F) := by
  have hmap1 : ((((buf.take n).filter (fun l => decide (l.retryCount < maxR))).map
      (bumpRetry msg t)).map (·.logId))
      = ((buf.take n).filter (fun l => decide (l.retryCount < maxR))).map (·.logId) := by
    rw [List.map_map]
    rfl
  have hmap2 : mapKeys (((buf.take n).filter
        (fun l => !decide (l.retryCount < maxR))).map
        (fun l => (l.logId, permEntry msg t b l)))
      = ((buf.take n).filter (fun l => !decide (l.retryCount < maxR))).map (·.logId) := by
    unfold mapKeys
    rw [List.map_map]
    rfl
  rw [← Multiset.coe_eq_coe]
  simp only [List.map_append, mapKeys_append, hmap1, hmap2, ← Multiset.coe_add]
  have hsplit : ((((buf.take n).filter (fun l => decide (l.retryCount < maxR))).map (·.logId) :
        Multiset Nat)
      + (((buf.take n).filter (fun l => !decide (l.retryCount < maxR))).map (·.logId) :
        Multiset Nat))
      = (((buf.take n).map (·.logId) : List Nat) : Multiset Nat) := by
    rw [Multiset.coe_add, Multiset.coe_eq_coe, ← List.map_append]
    exact (List.filter_append_perm _ _).map _
  have hbuf : ((buf.map (·.logId) : List Nat) : Multiset Nat)
      = (((buf.take n).map (·.logId) : List Nat) : Multiset Nat)
        + (((buf.drop n).map (·.logId) : List Nat) : Multiset Nat) := by
    rw [Multiset.coe_add, Multiset.coe_eq_coe, ← List.map_append, List.take_append_drop]
  rw [hbuf, ← hsplit]
  abel

/-- The record ids after the requeue phase of `retryFailedLogs` are a
permutation of the ids before it: the permanent map's contents move to the
buffer tail. -/
theorem retry_ids_perm (buf : List LogRec) (P F : List (Nat × LogRec))
    (hwk : ∀ p ∈ F, p.2.logId = p.1) :
    List.Perm
      ((buf ++ (F.map Prod.snd).map clearRetry).map (·.logId)
        ++ mapKeys P ++ mapKeys ([] : List (Nat × LogRec)))
      (buf.map (·.logId) ++ mapKeys P ++ mapKeys F) := by
  have hmap : ((F.map Prod.snd).map clearRetry).map (·.logId) = mapKeys F := by
    rw [List.map_map, List.map_map]
    exact List.map_congr_left (fun p hp => hwk p hp)
  rw [← Multiset.coe_eq_coe]
  simp only [List.map_append, mapKeys_append, hmap, ← Multiset.coe_add]
  show (_ + _ : Multiset Nat) + _ = _
  simp only [mapKeys, List.map_nil]
  rw [show (([] : List Nat) : Multiset Nat) = 0 from rfl]
  abel

/-- `processBuffer` preserves store well-formedness. -/
theorem StoreWF_processBuffer {s s' : Store} {b : Nat} {t : Int}
    {pr ir : Except String Unit} (hwf : StoreWF s)
    (h : processBuffer s b t pr ir = .ok s') : StoreWF s' := by
  by_cases hg : s._isProcessing = true ∨ s.buffer = []
  · rw [processBuffer_guard b t pr ir hg] at h
    cases h
    exact hwf
  · push_neg at hg
    have hp : s._isProcessing = false := by
      simpa using hg.1
    obtain ⟨hnd, hfrP, hfrF⟩ := batch_fresh hwf
    cases hfa : flushAttempt pr ir with
    | ok u =>
      cases u
      rw [processBuffer_success b t hp hg.2 hfa hnd hfrP] at h
      cases h
      refine ⟨?_, hwf.2⟩
      have hsub : List.Sublist
          (((s.buffer.drop s.BATCH_SIZE).map (·.logId))
            ++ mapKeys s.pendingLogs ++ mapKeys s.failedLogs)
          ((s.buffer.map (·.logId))
            ++ mapKeys s.pendingLogs ++ mapKeys s.failedLogs) :=
        (((List.drop_sublist _ _).map _).append (List.Sublist.refl _)).append
          (List.Sublist.refl _)
      exact hwf.1.sublist hsub
    | error msg =>
      rw [processBuffer_failure b t hp hg.2 hfa hnd hfrP hfrF] at h
      cases h
      constructor
      · exact (failure_ids_perm s.BATCH_SIZE s.maxRetries msg t b s.buffer
          s.pendingLogs s.failedLogs).nodup_iff.2 hwf.1
      · refine ⟨hwf.2.1, ?_⟩
        intro p hp'
        rcases List.mem_append.1 hp' with h' | h'
        · exact hwf.2.2 p h'
        · rcases List.mem_map.1 h' with ⟨l, _, rfl⟩
          rfl

/-- `addLog` preserves store well-formedness when the generated id is
fresh. -/
theorem StoreWF_addLog {s s' : Store} {raw : RawLog} {newId : Nat} {now : Int}
    {batchId : Nat} {pr ir : Except String Unit} (hwf : StoreWF s)
    (hfresh : newId ∉ allIds s)
    (h : addLog s raw newId now batchId pr ir = .ok s') : StoreWF s' := by
  have hwf1 : StoreWF { s with buffer := s.buffer ++ [mkLogRecord raw newId now] } := by
    refine ⟨?_, hwf.2⟩
    have hperm : List.Perm
        (((s.buffer ++ [mkLogRecord raw newId now]).map (·.logId))
          ++ mapKeys s.pendingLogs ++ mapKeys s.failedLogs)
        (newId :: allIds s) := by
      rw [List.map_append]
      exact ((List.perm_append_singleton _ _).append (List.Perm.refl _)).append
        (List.Perm.refl _)
    exact hperm.nodup_iff.2 (List.nodup_cons.2 ⟨hfresh, hwf.1⟩)
  unfold addLog at h
  dsimp only at h
  split at h
  · exact StoreWF_processBuffer hwf1 h
  · cases h
    exact hwf1

/-- `retryFailedLogs` preserves store well-formedness. -/
theorem StoreWF_retryFailedLogs {s s' : Store} {b : Nat} {t : Int}
    {pr ir : Except String Unit} (hwf : StoreWF s)
    (h : retryFailedLogs s b t pr ir = .ok s') : StoreWF s' := by
  unfold retryFailedLogs at h
  split at h
  · cases h
    exact hwf
  · obtain ⟨_, _, hndF, _, _, _⟩ := Exclusive_parts hwf.1
    rw [retryRequeue_eq hndF hwf.2.2] at h
    apply StoreWF_processBuffer ?_ h
    constructor
    · exact (retry_ids_perm s.buffer s.pendingLogs s.failedLogs
        hwf.2.2).nodup_iff.2 hwf.1
    · exact ⟨hwf.2.1, fun p hp => absurd hp (List.not_mem_nil p)⟩

/-- Every single operation preserves store well-formedness, given that the
id it introduces (if any) is fresh. -/
theorem StoreWF_applyOp {s s' : Store} {op : Op} (hwf : StoreWF s)
    (hfr : opFreshB s op = true) (h : applyOp s op = .ok s') : StoreWF s' := by
  cases op with
  | add raw newId now batchId pr ir =>
    have : newId ∉ allIds s := by
      simpa [opFreshB] using hfr
    exact StoreWF_addLog hwf this h
  | flush batchId now pr ir => exact StoreWF_processBuffer hwf h
  | retryAll batchId now pr ir => exact StoreWF_retryFailedLogs hwf h

/-- Well-formedness is preserved along every run of operations whose fresh
ids are really fresh. -/
theorem StoreWF_runOps :
    ∀ (ops : List Op) (s s' : Store), StoreWF s →
      freshAlongB s ops = true → runOps s ops = .ok s' → StoreWF s' := by
  intro ops
  induction ops with
  | nil =>
    intro s s' hwf _ h
    cases h
    exact hwf
  | cons op ops ih =>
    intro s s' hwf hfa h
    unfold runOps at h
    cases happ : applyOp s op with
    | ok s1 =>
      rw [happ] at h
      have hfa' : opFreshB s op = true ∧ freshAlongB s1 ops = true := by
        rw [freshAlongB, happ, Bool.and_eq_true] at hfa
        exact hfa
      exact ih s1 s' (StoreWF_applyOp hwf hfa'.1 happ) hfa'.2 h
    | error e =>
      rw [happ] at h
      cases h

/-! ### Retry-bound preservation, and small stepping lemmas -/

theorem FailedBound_processBuffer {s s' : Store} {b : Nat} {t : Int}
    {pr ir : Except String Unit} (hfb : FailedBound s)
    (h : processBuffer s b t pr ir = .ok s') : FailedBound s' := by
  unfold processBuffer at h
  split at h
  · cases h
    exact hfb
  · dsimp only at h
    split at h
    · cases h
      intro p hp
      exact hfb p hp
    · cases h
      intro p hp
      rcases rollbackFold_failed_mem s.maxRetries _ t b _ _ p hp with h' | ⟨l, _, hlr, rfl⟩
      · exact hfb p h'
      · simpa [permEntry] using Nat.le_of_not_lt hlr

theorem FailedBound_addLog {s s' : Store} {raw : RawLog} {newId : Nat} {now : Int}
    {batchId : Nat} {pr ir : Except String Unit} (hfb : FailedBound s)
    (h : addLog s raw newId now batchId pr ir = .ok s') : FailedBound s' := by
  unfold addLog at h
  dsimp only at h
  split at h
  · refine FailedBound_processBuffer ?_ h
    exact fun p hp => hfb p hp
  · cases h
    exact fun p hp => hfb p hp

theorem FailedBound_retryFailedLogs {s s' : Store} {b : Nat} {t : Int}
    {pr ir : Except String Unit} (hfb : FailedBound s)
    (h : retryFailedLogs s b t pr ir = .ok s') : FailedBound s' := by
  unfold retryFailedLogs at h
  split at h
  · cases h
    exact hfb
  · have hfb2 : FailedBound (retryRequeue s) := by
      intro p hp
      have h1 : p ∈ s.failedLogs := (retryFold_failed_sub _ s).1 hp
      have h2 : (retryRequeue s).maxRetries = s.maxRetries := (retryFold_failed_sub _ s).2
      rw [h2]
      exact hfb p h1
    exact FailedBound_processBuffer hfb2 h

theorem FailedBound_applyOp {s s' : Store} {op : Op} (hfb : FailedBound s)
    (h : applyOp s op = .ok s') : FailedBound s' := by
  cases op with
  | add raw newId now batchId pr ir => exact FailedBound_addLog hfb h
  | flush batchId now pr ir => exact FailedBound_processBuffer hfb h
  | retryAll batchId now pr ir => exact FailedBound_retryFailedLogs hfb h

theorem FailedBound_runOps :
    ∀ (ops : List Op) (s s' : Store), FailedBound s →
      runOps s ops = .ok s' → FailedBound s' := by
  intro ops
  induction ops with
  | nil =>
    intro s s' hfb h
    cases h
    exact hfb
  | cons op ops ih =>
    intro s s' hfb h
    unfold runOps at h
    cases happ : applyOp s op with
    | ok s1 =>
      rw [happ] at h
      exact ih s1 s' (FailedBound_applyOp hfb happ) h
    | error e =>
      rw [happ] at h
      cases h

/-- A run of a single operation is just the operation. -/
theorem runOps_singleton (s : Store) (op : Op) : runOps s [op] = applyOp s op := by
  cases h : applyOp s op <;> simp [runOps, h]

/-- Stepping a run through a successful first operation. -/
theorem runOps_cons_ok {s s1 : Store} {op : Op} {ops : List Op}
    (h : applyOp s op = .ok s1) : runOps s (op :: ops) = runOps s1 ops := by
  simp [runOps, h]

/-- Appending below the threshold: no flush is triggered. -/
theorem addLog_no_trigger {s : Store} {raw : RawLog} {newId : Nat} {now : Int}
    {batchId : Nat} {pr ir : Except String Unit}
    (h : ¬ s.BATCH_SIZE ≤ s.buffer.length + 1) :
    addLog s raw newId now batchId pr ir
      = .ok { s with buffer := s.buffer ++ [mkLogRecord raw newId now] } := by
  unfold addLog
  dsimp only
  rw [if_neg]
  simpa using h

/-- Appending at or above the threshold: the size trigger fires
synchronously. -/
theorem addLog_trigger {s : Store} {raw : RawLog} {newId : Nat} {now : Int}
    {batchId : Nat} {pr ir : Except String Unit}
    (h : s.BATCH_SIZE ≤ s.buffer.length + 1) :
    addLog s raw newId now batchId pr ir
      = processBuffer { s with buffer := s.buffer ++ [mkLogRecord raw newId now] }
          batchId now pr ir := by
  unfold addLog
  dsimp only
  rw [if_pos]
  simpa using h

/-- The `forceFlush` loop exits immediately on an empty buffer. -/
theorem forceFlushAux_empty (env : Nat → FlushEnv) (fuel i : Nat) {s : Store}
    (hb : s.buffer = []) : forceFlushAux env fuel i s = .ok s := by
  cases fuel with
  | zero => rfl
  | succ n =>
    unfold forceFlushAux
    rw [if_pos]
    simp [hb]

/-- `processBuffer` interacts with the backend only through the combined
outcome of the partition check and the bulk insert. -/
theorem processBuffer_congr {s : Store} {b : Nat} {t : Int}
    {pr ir pr' ir' : Except String Unit}
    (h : flushAttempt pr ir = flushAttempt pr' ir') :
    processBuffer s b t pr ir = processBuffer s b t pr' ir' := by
  unfold processBuffer
  rw [h]

/-! ### Claim theorems -/

/-- C1: for every sequence of `addLog`, `processBuffer` and `retryFailedLogs`
operations (with the freshly generated ids really fresh, as `randomUUID`
guarantees), starting from a well-formed store, at every instant between
operation steps each record id occurs in exactly one of the staging buffer,
the in-flight map and the permanent-failure map — never in more than one at
once (`Exclusive`: the concatenated id list has no duplicates; every prefix
of the run is itself a run, so the invariant holds between all steps). -/
theorem c1_container_exclusivity (s : Store) (ops : List Op) (s' : Store)
    (hwf : StoreWF s) (hfresh : freshAlongB s ops = true)
    (hrun : runOps s ops = .ok s') : Exclusive s' :=
  (StoreWF_runOps ops s s' hwf hfresh hrun).1

/-- Witness for C1 at a concrete run: append, failing flush, retry-all. -/
theorem c1_container_exclusivity_witness : Exclusive c1Out :=
  c1_container_exclusivity (initStore 2 60000) c1Ops c1Out
    (by unfold StoreWF Exclusive WellKeyed
        exact ⟨by decide, by decide, by decide⟩)
    (by decide) (by rfl)

/-- C5 (amended): a partition-provisioning failure does not surface as an
exception to any caller of `processBuffer` — manual or timer — because the
method's own `catch` swallows it: the call returns normally; the bulk
insert is not attempted (the result does not depend on the insert outcome);
and the batch is handled by the same rollback path as an insert failure
with the wrapped message. -/
theorem c5_partition_failure_amended (s : Store) (b : Nat) (t : Int) (msg : String)
    (ir ir' : Except String Unit) :
    isOkB (processBuffer s b t (.error msg) ir) = true ∧
    processBuffer s b t (.error msg) ir = processBuffer s b t (.error msg) ir' ∧
    processBuffer s b t (.error msg) ir
      = processBuffer s b t (.ok ()) (.error ("파티션 생성 실패: " ++ msg)) := by
  refine ⟨?_, processBuffer_congr rfl, processBuffer_congr rfl⟩
  obtain ⟨s', h, _⟩ := processBuffer_frame s b t (.error msg) ir
  rw [h]
  rfl

/-- C5 counterexample: with a concrete staged record and a failing
partition check, `processBuffer` returns normally (`.ok`) and rolls the
record back into the buffer — no exception reaches the manual caller, so
the claim that the error surfaces as an exception to the caller is false. -/
theorem c5_counterexample :
    isOkB (processBuffer c5Store 1 0 (.error "partition down") (.ok ())) = true ∧
    processBuffer c5Store 1 0 (.error "partition down") (.ok ())
      = .ok { c5Store with
          buffer := [bumpRetry ("파티션 생성 실패: " ++ "partition down") 0
            (mkLogRecord rawA 9 0)]
          lastProcessedAt := some 0 } := by
  constructor <;> rfl

/-- C7: every `processBuffer` execution started with the single-flight flag
clear leaves the flag clear on every exit path — success, bulk-insert
failure, timeout, or partition-check failure (all backend outcomes `pr`,
`ir` are quantified) — so after any flush attempt the state is back to
Idle. -/
theorem c7_single_flight (s : Store) (b : Nat) (t : Int) (pr ir : Except String Unit)
    (s' : Store) (hp : s._isProcessing = false)
    (h : processBuffer s b t pr ir = .ok s') : s'._isProcessing = false := by
  obtain ⟨s'', h', _, _, _, _, hflag⟩ := processBuffer_frame s b t pr ir
  rw [h'] at h
  cases h
  rw [hflag, hp]

/-- Witness for C7 at a concrete failing flush. -/
theorem c7_single_flight_witness : c7Out._isProcessing = false :=
  c7_single_flight c5Store 1 0 (.ok ()) (.error "x") c7Out rfl rfl

/-- C8: calling `processBuffer` while a flush is in progress or while the
buffer is empty returns immediately with the state unchanged; and
`forceFlush` on an empty staging buffer is a no-op returning the state
unchanged (buffer, both ledger maps and all counters included). -/
theorem c8_noop_guards (s : Store) (b : Nat) (t : Int) (pr ir : Except String Unit)
    (env : Nat → FlushEnv) :
    (s._isProcessing = true ∨ s.buffer = [] → processBuffer s b t pr ir = .ok s) ∧
    (s.buffer = [] → forceFlush env s = .ok s) := by
  refine ⟨processBuffer_guard b t pr ir, fun hb => ?_⟩
  exact forceFlushAux_empty env 10 0 hb

/-- Witness for C8 on a freshly constructed (empty) store. -/
theorem c8_noop_guards_witness :
    processBuffer (initStore 1000 60000) 1 0 (.ok ()) (.ok ())
      = .ok (initStore 1000 60000) ∧
    forceFlush (fun _ => ⟨1, 0, .ok (), .ok ()⟩) (initStore 1000 60000)
      = .ok (initStore 1000 60000) := by
  have h := c8_noop_guards (initStore 1000 60000) 1 0 (.ok ()) (.ok ())
    (fun _ => ⟨1, 0, .ok (), .ok ()⟩)
  exact ⟨h.1 (Or.inr rfl), h.2 rfl⟩

/-- C10: `clearBuffer` empties the staging buffer and the in-flight map and
cancels the periodic flush timer, so no sequence of timer ticks after it
changes the state (the time trigger never fires until `startFlushTimer`
reinstalls the timer, which sets the flag back); the permanent-failure map
and the counters `totalProcessed` and `totalFailed` are left unchanged. -/
theorem c10_clearBuffer_cancels_timer (s : Store) (envs : List FlushEnv) :
    (clearBuffer s).buffer = [] ∧
    (clearBuffer s).pendingLogs = [] ∧
    (clearBuffer s).flushTimerActive = false ∧
    (clearBuffer s).failedLogs = s.failedLogs ∧
    (clearBuffer s).totalProcessed = s.totalProcessed ∧
    (clearBuffer s).totalFailed = s.totalFailed ∧
    envs.foldl timerTick (clearBuffer s) = clearBuffer s ∧
    (startFlushTimer (clearBuffer s)).flushTimerActive = true := by
  have hticks : ∀ (es : List FlushEnv) (s₀ : Store), s₀.flushTimerActive = false →
      es.foldl timerTick s₀ = s₀ := by
    intro es
    induction es with
    | nil =>
      intro s₀ _
      rfl
    | cons e es ih =>
      intro s₀ h
      rw [List.foldl_cons, show timerTick s₀ e = s₀ from by simp [timerTick, h]]
      exact ih s₀ h
  exact ⟨rfl, rfl, rfl, rfl, rfl, rfl, hticks envs _ rfl, rfl⟩

/-- C2 counterexample: a failed flush attempt whose batch contains a record
with `retryCount = maxRetries = 3` does not increase that record's
`retryCount` by 1 — the record is moved to the permanent map with
`retryCount` still 3 (not 4), refuting "for every record and every failed
flush attempt containing it, retryCount increases by exactly 1". -/
theorem c2_counterexample :
    processBuffer c2Store 1 0 (.ok ()) (.error "boom")
      = .ok { c2Store with
          buffer := []
          failedLogs := [(5, permEntry "boom" 0 1 recMaxed)]
          totalFailed := 1
          lastProcessedAt := some 0 } ∧
    recMaxed.retryCount = 3 ∧
    (permEntry "boom" 0 1 recMaxed).retryCount = 3 := by
  refine ⟨by rfl, rfl, rfl⟩

/-- C2 (amended): on every failed flush attempt, each batch record with
`retryCount < maxRetries` has its `retryCount` increased by exactly 1 and
is requeued (and is not moved to the permanent map); a record is moved to
the permanent map if and only if its `retryCount` has reached `maxRetries`,
with its `retryCount` unchanged; consequently every record stored in the
permanent-failure map has `retryCount ≥ maxRetries`, an invariant of all
operation sequences. -/
theorem c2_retry_bound_amended :
    (∀ (s : Store) (b : Nat) (t : Int) (pr ir : Except String Unit) (msg : String),
      s._isProcessing = false → s.buffer ≠ [] → flushAttempt pr ir = .error msg →
      ((s.buffer.take s.BATCH_SIZE).map (·.logId)).Nodup →
      (∀ l ∈ s.buffer.take s.BATCH_SIZE, l.logId ∉ mapKeys s.pendingLogs) →
      (∀ l ∈ s.buffer.take s.BATCH_SIZE, l.logId ∉ mapKeys s.failedLogs) →
      ∃ s', processBuffer s b t pr ir = .ok s' ∧
        ∀ l ∈ s.buffer.take s.BATCH_SIZE,
          (l.retryCount < s.maxRetries →
            bumpRetry msg t l ∈ s'.buffer ∧
            (bumpRetry msg t l).retryCount = l.retryCount + 1 ∧
            (l.logId, permEntry msg t b l) ∉ s'.failedLogs) ∧
          (¬ l.retryCount < s.maxRetries →
            (l.logId, permEntry msg t b l) ∈ s'.failedLogs ∧
            (permEntry msg t b l).retryCount = l.retryCount)) ∧
    (∀ (s₀ : Store) (ops : List Op) (s₁ : Store), FailedBound s₀ →
      runOps s₀ ops = .ok s₁ → FailedBound s₁) := by
  constructor
  · intro s b t pr ir msg hp hne herr hnd hfrP hfrF
    refine ⟨_, processBuffer_failure b t hp hne herr hnd hfrP hfrF, ?_⟩
    intro l hl
    constructor
    · intro hret
      refine ⟨?_, rfl, ?_⟩
      · apply List.mem_append_right
        exact List.mem_map_of_mem _ (List.mem_filter.2 ⟨hl, by simpa using hret⟩)
      · intro hmem
        rcases List.mem_append.1 hmem with hmem | hmem
        · exact hfrF l hl (List.mem_map_of_mem (·.1) hmem)
        · rcases List.mem_map.1 hmem with ⟨x, hx, hxe⟩
          have hxb : x ∈ s.buffer.take s.BATCH_SIZE := List.mem_of_mem_filter hx
          have hxid : x.logId = l.logId := by
            have := congrArg Prod.fst hxe
            simpa using this
          have hxl : x = l := List.inj_on_of_nodup_map hnd hxb hl hxid
          rw [hxl] at hx
          have hnot := (List.mem_filter.1 hx).2
          exact absurd hret (by simpa using hnot)
    · intro hret
      refine ⟨?_, rfl⟩
      apply List.mem_append_right
      exact List.mem_map_of_mem _ (List.mem_filter.2 ⟨hl, by simpa using hret⟩)
  · intro s₀ ops s₁ hfb hrun
    exact FailedBound_runOps ops s₀ s₁ hfb hrun

/-- Witness for the amended C2: the retry-exhausted record is quarantined
with its `retryCount` unchanged. -/
theorem c2_retry_bound_amended_witness :
    ∃ s', processBuffer c2Store 1 0 (.ok ()) (.error "boom") = .ok s' ∧
      ((5 : Nat), permEntry "boom" 0 1 recMaxed) ∈ s'.failedLogs ∧
      (permEntry "boom" 0 1 recMaxed).retryCount = recMaxed.retryCount := by
  obtain ⟨s', hrun, hmem⟩ := c2_retry_bound_amended.1 c2Store 1 0 (.ok ()) (.error "boom")
    "boom" rfl (by decide) rfl (by decide) (by decide) (by decide)
  have h := (hmem recMaxed (by decide)).2 (by decide)
  exact ⟨s', hrun, h.1, rfl⟩

/-- C3 counterexample: with `maxRetries = 3` and an always-failing backend,
after 3 failed flush attempts targeting the single appended record it is
NOT yet in the permanent-failure map: it is still in the staging buffer
with `retryCount = 3`, refuting "ends up in the permanent-failure map after
at most 3 flush attempts that target it". -/
theorem c3_counterexample :
    inFailedMap (runOps (initStore 1000 60000) c3Ops3) 5 = false ∧
    bufferRetryCount (runOps (initStore 1000 60000) c3Ops3) 5 = some 3 := by
  constructor <;> rfl

/-- C3 (amended): the record reaches the permanent-failure map on the 4th
failed flush attempt (quarantine happens on the attempt after `retryCount`
has reached `maxRetries`); `retryFailedLogs` then removes it from the
permanent map and re-enqueues it into the staging buffer with
`retryCount == 0` (requeue phase), after which the single flush attempt it
triggers — against the still-failing backend — leaves it staged with
`retryCount == 1`. -/
theorem c3_quarantine_amended :
    inFailedMap (runOps (initStore 1000 60000) c3Ops4) 5 = true ∧
    bufferRetryCount (runOps (initStore 1000 60000) c3Ops4) 5 = none ∧
    (mapKeys (retryRequeue c3After4).failedLogs).contains 5 = false ∧
    ((retryRequeue c3After4).buffer.find? (fun l => l.logId == 5)).map (·.retryCount)
      = some 0 ∧
    bufferRetryCount (retryFailedLogs c3After4 20 9 (.ok ()) (.error "down")) 5
      = some 1 := by
  refine ⟨rfl, rfl, rfl, rfl, rfl⟩

/-- C6: on a failed flush attempt (partition error, insert error or timeout
— any `flushAttempt` error), every batch record with
`retryCount < maxRetries` is bumped (`retryCount + 1`, `lastFailureReason`
and `lastFailureAt` stamped with the failure's message and time) and
re-appended at the tail of the staging buffer, behind the records that were
already behind the batch; records with `retryCount ≥ maxRetries` are
instead appended to the permanent-failure map as quarantined copies
(`finalFailureReason`/`finalFailureAt`/`batchId`) and counted into
`totalFailed`; the in-flight map is left (net) unchanged and
`totalProcessed` does not move. -/
theorem c6_rollback_requeue (s : Store) (b : Nat) (t : Int)
    (pr ir : Except String Unit) (msg : String)
    (hp : s._isProcessing = false) (hne : s.buffer ≠ [])
    (herr : flushAttempt pr ir = .error msg)
    (hnd : ((s.buffer.take s.BATCH_SIZE).map (·.logId)).Nodup)
    (hfrP : ∀ l ∈ s.buffer.take s.BATCH_SIZE, l.logId ∉ mapKeys s.pendingLogs)
    (hfrF : ∀ l ∈ s.buffer.take s.BATCH_SIZE, l.logId ∉ mapKeys s.failedLogs) :
    ∃ s', processBuffer s b t pr ir = .ok s' ∧
      s'.buffer = s.buffer.drop s.BATCH_SIZE ++
        ((s.buffer.take s.BATCH_SIZE).filter
          (fun l => decide (l.retryCount < s.maxRetries))).map (bumpRetry msg t) ∧
      s'.failedLogs = s.failedLogs ++
        ((s.buffer.take s.BATCH_SIZE).filter
          (fun l => !decide (l.retryCount < s.maxRetries))).map
          (fun l => (l.logId, permEntry msg t b l)) ∧
      s'.pendingLogs = s.pendingLogs ∧
      s'.totalFailed = s.totalFailed +
        ((s.buffer.take s.BATCH_SIZE).filter
          (fun l => !decide (l.retryCount < s.maxRetries))).length ∧
      s'.totalProcessed = s.totalProcessed :=
  ⟨_, processBuffer_failure b t hp hne herr hnd hfrP hfrF, rfl, rfl, rfl, rfl, rfl⟩

/-- Witness for C6: one fresh and one retry-exhausted record; the fresh one
is requeued bumped, the exhausted one is quarantined. -/
theorem c6_rollback_requeue_witness :
    ∃ s', processBuffer c6Store 2 5 (.ok ()) (.error "io error") = .ok s' ∧
      s'.buffer = [bumpRetry "io error" 5 recFresh] ∧
      s'.failedLogs = [(5, permEntry "io error" 5 2 recMaxed)] ∧
      s'.pendingLogs = [] ∧ s'.totalFailed = 1 ∧ s'.totalProcessed = 0 := by
  obtain ⟨s', h, h1, h2, h3, h4, h5⟩ := c6_rollback_requeue c6Store 2 5 (.ok ())
    (.error "io error") "io error" rfl (by decide) rfl (by decide) (by decide) (by decide)
  refine ⟨s', h, ?_, ?_, ?_, ?_, ?_⟩
  · rw [h1]
    rfl
  · rw [h2]
    rfl
  · rw [h3]
    rfl
  · rw [h4]
    rfl
  · rw [h5]
    rfl

/-- Auxiliary induction for C4: from a non-processing store with no
in-flight records whose buffer is `params.length` short of `BATCH_SIZE`,
appending all of `params` (with an always-succeeding backend) drains the
buffer and counts `BATCH_SIZE` records as processed. -/
theorem c4_aux :
    ∀ (params : List (RawLog × Nat × Int × Nat)) (s : Store),
      s._isProcessing = false → s.pendingLogs = [] → params ≠ [] →
      s.buffer.length + params.length = s.BATCH_SIZE →
      ∃ s', runOps s (params.map (fun q =>
          Op.add q.1 q.2.1 q.2.2.1 q.2.2.2 (.ok ()) (.ok ()))) = .ok s' ∧
        s'.buffer = [] ∧ s'.totalProcessed = s.totalProcessed + s.BATCH_SIZE := by
  intro params
  induction params with
  | nil =>
    intro s _ _ hne _
    exact absurd rfl hne
  | cons q rest ih =>
    intro s hp hpend _ hlen
    rw [List.length_cons] at hlen
    rw [List.map_cons]
    by_cases hrest : rest = []
    · subst hrest
      have hlen1 : s.buffer.length + 1 = s.BATCH_SIZE := by
        simpa using hlen
      have htrig : s.BATCH_SIZE ≤ s.buffer.length + 1 := le_of_eq hlen1.symm
      have hlenapp : (s.buffer ++ [mkLogRecord q.1 q.2.1 q.2.2.1]).length
          = s.BATCH_SIZE := by
        simpa using hlen1
      have hne1 : (s.buffer ++ [mkLogRecord q.1 q.2.1 q.2.2.1]) ≠ [] := by
        simp
      have hps := @processBuffer_success_nopending
        { s with buffer := s.buffer ++ [mkLogRecord q.1 q.2.1 q.2.2.1] }
        q.2.2.2 q.2.2.1 (.ok ()) (.ok ()) hp hne1 rfl hpend
      have happ : applyOp s (Op.add q.1 q.2.1 q.2.2.1 q.2.2.2 (.ok ()) (.ok ()))
          = .ok _ := (addLog_trigger htrig).trans hps
      refine ⟨_, (runOps_cons_ok happ).trans rfl, ?_, ?_⟩
      · exact List.drop_eq_nil_of_le (le_of_eq hlenapp)
      · have htake : ((s.buffer ++ [mkLogRecord q.1 q.2.1 q.2.2.1]).take
            s.BATCH_SIZE).length = s.BATCH_SIZE := by
          rw [List.length_take, hlenapp, Nat.min_self]
        simpa using congrArg (s.totalProcessed + ·) htake
    · have hlt : ¬ s.BATCH_SIZE ≤ s.buffer.length + 1 := by
        have hr : 0 < rest.length := List.length_pos.2 hrest
        omega
      have happ : applyOp s (Op.add q.1 q.2.1 q.2.2.1 q.2.2.2 (.ok ()) (.ok ()))
          = .ok { s with buffer := s.buffer ++ [mkLogRecord q.1 q.2.1 q.2.2.1] } :=
        addLog_no_trigger hlt
      rw [runOps_cons_ok happ]
      apply ih
      · exact hp
      · exact hpend
      · exact hrest
      · simp only [List.length_append, List.length_cons, List.length_nil]
        omega

/-- C4: with `BATCH_SIZE = N` and a storage backend whose partition check
and bulk insert always succeed, appending `N` records through `addLog`
leaves the staging buffer empty with `totalProcessed = N`, without any
timer firing: the size trigger is checked synchronously inside `addLog`
after every append and fires as soon as the buffer length reaches
`BATCH_SIZE`. -/
theorem c4_threshold_trigger (N fi : Nat) (params : List (RawLog × Nat × Int × Nat))
    (hN : 0 < N) (hlen : params.length = N) :
    ∃ s', runOps (initStore N fi) (params.map (fun q =>
        Op.add q.1 q.2.1 q.2.2.1 q.2.2.2 (.ok ()) (.ok ()))) = .ok s' ∧
      s'.buffer = [] ∧ s'.totalProcessed = N := by
  have hne : params ≠ [] := by
    intro h
    rw [h] at hlen
    simp at hlen
    omega
  obtain ⟨s', h1, h2, h3⟩ := c4_aux params (initStore N fi) rfl rfl hne
    (by simpa [initStore] using hlen)
  exact ⟨s', h1, h2, by simpa [initStore] using h3⟩

/-- Witness for C4 at `N = 2`: two appends drain into one successful
batch. -/
theorem c4_threshold_trigger_witness :
    ∃ s', runOps (initStore 2 60000)
        (([(rawA, 7, 0, 1), (rawA, 8, 0, 2)] : List (RawLog × Nat × Int × Nat)).map
          (fun q => Op.add q.1 q.2.1 q.2.2.1 q.2.2.2 (.ok ()) (.ok ()))) = .ok s' ∧
      s'.buffer = [] ∧ s'.totalProcessed = 2 :=
  c4_threshold_trigger 2 60000 [(rawA, 7, 0, 1), (rawA, 8, 0, 2)] (by decide) rfl

/-- Sortedness of the records slice produced by `getStoredLogs`: a page of
the descending-by-`createdAt` merge sort, decorated, is pairwise descending
in `created_at`. -/
theorem stored_slice_sorted (L : List LogRec) (off lim : Nat) :
    ((((L.mergeSort (fun a b => b.createdAt ≤ a.createdAt)).drop off).take lim).map
      (fun log => ({ log := log, created_at := log.createdAt, logged_at := none,
                     source := "memory" } : StoredView))).Pairwise
      (fun a b => b.created_at ≤ a.created_at) := by
  have h1 : (L.mergeSort (fun a b => b.createdAt ≤ a.createdAt)).Pairwise
      (fun a b => (decide (b.createdAt ≤ a.createdAt)) = true) := by
    apply List.sorted_mergeSort
    · intro a b c hab hbc
      simp only [decide_eq_true_eq] at hab hbc ⊢
      omega
    · intro a b
      simp [Int.le_total]
  have h2 : ((((L.mergeSort (fun a b => b.createdAt ≤ a.createdAt)).drop off).take
      lim)).Pairwise (fun a b => (decide (b.createdAt ≤ a.createdAt)) = true) :=
    List.Pairwise.sublist
      ((List.take_sublist _ _).trans (List.drop_sublist _ _)) h1
  rw [List.pairwise_map]
  exact h2.imp (fun h => by simpa using h)

/-- C9: `getStoredLogs` reads the store and returns it unchanged (it copies
the staging buffer and never mutates the buffer, the ledger maps or the
counters); its records are sorted by `createdAt` in descending order; the
result's `page` defaults to 1 when no page is given; with no `limit` the
page holds at most 50 records; and `totalPages` is the ceiling
`⌈total / limit⌉`, computed as `(total + limit - 1) / limit` with the
effective limit (default 50). -/
theorem c9_getStoredLogs_pure_sorted (s : Store) (f : Filters) :
    (getStoredLogs s f).2 = s ∧
    (getStoredLogs s f).1.records.Pairwise
      (fun a b => b.created_at ≤ a.created_at) ∧
    (getStoredLogs s f).1.page = pageUsed f ∧
    (f.page = none → (getStoredLogs s f).1.page = 1) ∧
    (f.limit = none → (getStoredLogs s f).1.records.length ≤ 50) ∧
    (getStoredLogs s f).1.totalPages
      = ((getStoredLogs s f).1.total + limitUsed f - 1) / limitUsed f := by
  refine ⟨rfl, stored_slice_sorted _ _ _, rfl, fun hpage => ?_, fun hlim => ?_, rfl⟩
  · show pageUsed f = 1
    rw [pageUsed, hpage]
  · show (getStoredLogs s f).1.records.length ≤ 50
    unfold getStoredLogs
    simp only [hlim, List.length_map]
    exact List.length_take_le _ _

/-- Witness for C9 on a concrete store with the empty filter. -/
theorem c9_getStoredLogs_pure_sorted_witness :
    (getStoredLogs c9Store {}).2 = c9Store ∧
    (getStoredLogs c9Store {}).1.page = 1 ∧
    (getStoredLogs c9Store {}).1.records.length ≤ 50 ∧
    (getStoredLogs c9Store {}).1.totalPages
      = ((getStoredLogs c9Store {}).1.total + 50 - 1) / 50 := by
  have h := c9_getStoredLogs_pure_sorted c9Store {}
  exact ⟨h.1, h.2.2.2.1 rfl, h.2.2.2.2.1 rfl, h.2.2.2.2.2⟩

end ShibaLog
